import Mathlib

/-!
Shallow embedding of the receipt-splitter core (`src/unnamed/part_000` types,
`src/unnamed/part_001` sanitizer / integrity validator / share-link codec /
allocation engine) and proofs of the specification claims.

Modelling conventions:
* A JavaScript string is a `List Char` of its code points (`JStr`).
* A JavaScript number is `JSNumber`: `nan`, `posInf`, `negInf`, or an exact
  rational `fin q`.  Binary-64 rounding is idealised away (exact rational
  arithmetic); the special values and their propagation rules follow the
  ECMAScript semantics.  `-0` is identified with `0`.
* Untrusted values (the argument of `validateReceiptIntegrity`, i.e. the
  result of `JSON.parse` or of the AI call) are `JSValue`.
* A thrown-and-caught exception is an `Except Unit` error; the validator's
  surrounding `try/catch` converts it to `none`.
-/

/- The kernel reduces the rational operations fine; they are merely marked
irreducible for the elaborator, which would keep `decide` from evaluating
the model on concrete receipts.  Restore default reducibility for this
file. -/
attribute [local semireducible] Rat.add Rat.mul Rat.inv Rat.sub

namespace ReceiptSplitter

/-- A JavaScript string, as its list of code points. -/
abbrev JStr := List Char

/-- A JavaScript number: NaN, the two infinities, or a finite value
(idealised as an exact rational). -/
inductive JSNumber where
  | nan : JSNumber
  | posInf : JSNumber
  | negInf : JSNumber
  | fin (q : ℚ) : JSNumber
deriving DecidableEq

namespace JSNumber

/-- Truthiness of a number: `NaN`, `0` and `-0` are falsy, everything else
is truthy. -/
def numTruthy : JSNumber → Bool
  | nan => false
  | posInf => true
  | negInf => true
  | fin q => decide (q ≠ 0)

/-- JavaScript `x || d` where both operands are numbers. -/
def numOr (n d : JSNumber) : JSNumber :=
  if numTruthy n then n else d

/-- JavaScript addition on numbers (exact in the finite case). -/
def jadd : JSNumber → JSNumber → JSNumber
  | nan, _ => nan
  | _, nan => nan
  | posInf, negInf => nan
  | negInf, posInf => nan
  | posInf, _ => posInf
  | _, posInf => posInf
  | negInf, _ => negInf
  | _, negInf => negInf
  | fin a, fin b => fin (a + b)

/-- JavaScript multiplication on numbers (exact in the finite case). -/
def jmul : JSNumber → JSNumber → JSNumber
  | nan, _ => nan
  | _, nan => nan
  | posInf, posInf => posInf
  | posInf, negInf => negInf
  | negInf, posInf => negInf
  | negInf, negInf => posInf
  | posInf, fin b => if b = 0 then nan else if 0 < b then posInf else negInf
  | fin a, posInf => if a = 0 then nan else if 0 < a then posInf else negInf
  | negInf, fin b => if b = 0 then nan else if 0 < b then negInf else posInf
  | fin a, negInf => if a = 0 then nan else if 0 < a then negInf else posInf
  | fin a, fin b => fin (a * b)

/-- JavaScript division on numbers.  The divisor `0` stands for `+0`
(the model identifies `-0` with `0`). -/
def jdiv : JSNumber → JSNumber → JSNumber
  | nan, _ => nan
  | _, nan => nan
  | posInf, posInf => nan
  | posInf, negInf => nan
  | negInf, posInf => nan
  | negInf, negInf => nan
  | posInf, fin b => if 0 ≤ b then posInf else negInf
  | negInf, fin b => if 0 ≤ b then negInf else posInf
  | fin _, posInf => fin 0
  | fin _, negInf => fin 0
  | fin a, fin b =>
    if b = 0 then (if a = 0 then nan else if 0 < a then posInf else negInf)
    else fin (a / b)

/-- JavaScript `x > y` on numbers (`false` whenever an operand is `NaN`). -/
def jgt : JSNumber → JSNumber → Bool
  | nan, _ => false
  | _, nan => false
  | posInf, posInf => false
  | posInf, _ => true
  | _, posInf => false
  | negInf, _ => false
  | fin _, negInf => true
  | fin a, fin b => decide (b < a)

/-- JavaScript `Math.max(0, x)`. -/
def jmaxZero : JSNumber → JSNumber
  | nan => nan
  | posInf => posInf
  | negInf => fin 0
  | fin q => fin (max 0 q)

/-- The number is finite and non-negative (the bound the spec asserts for
every numeric field of a validated receipt). -/
def nonNegFinite : JSNumber → Bool
  | fin q => decide (0 ≤ q)
  | _ => false

end JSNumber

open JSNumber

/-- An untrusted JavaScript value, as produced by `JSON.parse` (plus
`undefined`, the result of reading an absent property). -/
inductive JSValue where
  | vUndefined : JSValue
  | vNull : JSValue
  | vBool (b : Bool) : JSValue
  | vNum (n : JSNumber) : JSValue
  | vStr (s : JStr) : JSValue
  | vArr (elems : List JSValue) : JSValue
  | vObj (fields : List (JStr × JSValue)) : JSValue

namespace JSValue

/-- JavaScript truthiness. -/
def truthy : JSValue → Bool
  | vUndefined => false
  | vNull => false
  | vBool b => b
  | vNum n => numTruthy n
  | vStr s => !s.isEmpty
  | vArr _ => true
  | vObj _ => true

/-- JavaScript `a || b`. -/
def jsOr (a b : JSValue) : JSValue := if truthy a then a else b

/-- Whether `typeof v === 'object'` (true for `null`, arrays and plain
objects in the JSON-derived value domain). -/
def typeofObject : JSValue → Bool
  | vNull => true
  | vArr _ => true
  | vObj _ => true
  | _ => false

/-- Whether `typeof v === 'string'`. -/
def isStr : JSValue → Bool
  | vStr _ => true
  | _ => false

/-- Whether `Array.isArray v`. -/
def isArr : JSValue → Bool
  | vArr _ => true
  | _ => false

/-- Whether the value is `null` or `undefined` (property access throws). -/
def notNullish : JSValue → Bool
  | vNull => false
  | vUndefined => false
  | _ => true

/-- Property lookup in an object's field list.  `JSON.parse` keeps the last
occurrence of a duplicated key, so the last binding wins. -/
def lookupField (l : List (JStr × JSValue)) (key : JStr) : JSValue :=
  match l.reverse.find? (fun p => p.1 == key) with
  | some p => p.2
  | none => vUndefined

/-- Property read `v.key`.  On a non-object it yields `undefined` (for the
property names the program reads, strings/numbers/arrays have no own or
inherited property of that name); reading from `null`/`undefined` is handled
separately by `getFieldEx`. -/
def getField (v : JSValue) (key : JStr) : JSValue :=
  match v with
  | vObj l => lookupField l key
  | _ => vUndefined

/-- Property read that throws (`TypeError`) on `null`/`undefined`. -/
def getFieldEx (v : JSValue) (key : JStr) : Except Unit JSValue :=
  match v with
  | vNull => .error ()
  | vUndefined => .error ()
  | _ => .ok (getField v key)

/-- Replace (or add) a field of an object; on a non-object, the identity. -/
def setField (v : JSValue) (key : JStr) (x : JSValue) : JSValue :=
  match v with
  | vObj l => vObj ((l.filter (fun p => !(p.1 == key))) ++ [(key, x)])
  | w => w

end JSValue

open JSValue

/-! ### String-to-number coercion (ECMAScript `ToNumber` on strings) -/

/-- ECMAScript whitespace (`StrWhiteSpace`, also the set trimmed by
`String.prototype.trim`): tab, line terminators, space, NBSP, the Unicode
`Zs` spaces and the BOM. -/
def isJsWs (c : Char) : Bool :=
  let n := c.toNat
  n == 0x9 || n == 0xA || n == 0xB || n == 0xC || n == 0xD || n == 0x20 ||
  n == 0xA0 || n == 0x1680 || (0x2000 ≤ n && n ≤ 0x200A) || n == 0x2028 ||
  n == 0x2029 || n == 0x202F || n == 0x205F || n == 0x3000 || n == 0xFEFF

/-- Trim ECMAScript whitespace from both ends (`String.prototype.trim`). -/
def jsTrim (s : JStr) : JStr :=
  (s.dropWhile isJsWs).rdropWhile isJsWs

/-- Numeric value of a digit character in base `b` (hex letters included),
if it is one. -/
def digitVal? (b : Nat) (c : Char) : Option Nat :=
  let n := c.toNat
  let v :=
    if 0x30 ≤ n && n ≤ 0x39 then some (n - 0x30)
    else if 0x41 ≤ n && n ≤ 0x46 then some (n - 0x41 + 10)
    else if 0x61 ≤ n && n ≤ 0x66 then some (n - 0x61 + 10)
    else none
  match v with
  | some d => if d < b then some d else none
  | none => none

/-- Accumulate digits of base `b`; returns the value and the rest. -/
def takeDigits (b : Nat) (acc : Nat) : JStr → Nat × JStr
  | [] => (acc, [])
  | c :: rest =>
    match digitVal? b c with
    | some d => takeDigits b (acc * b + d) rest
    | none => (acc, c :: rest)

/-- Count how many leading characters are base-`b` digits. -/
def countDigits (b : Nat) : JStr → Nat
  | [] => 0
  | c :: rest =>
    match digitVal? b c with
    | some _ => 1 + countDigits b rest
    | none => 0

/-- Parse an unsigned decimal literal `digits [. digits] [e [sign] digits]`
(ECMAScript `StrUnsignedDecimalLiteral`, the `Infinity` form excluded);
returns its exact value and the unconsumed rest, or `none` if no digit is
present where one is required. -/
def parseDecimal (s : JStr) : Option (ℚ × JStr) :=
  let intDigits := countDigits 10 s
  let (ip, s1) := takeDigits 10 0 s
  match s1 with
  | '.' :: s2 =>
    let fracDigits := countDigits 10 s2
    if intDigits == 0 && fracDigits == 0 then none
    else
      let (fp, s3) := takeDigits 10 0 s2
      let mant : ℚ := (ip : ℚ) + (fp : ℚ) / ((10 : ℚ) ^ fracDigits)
      parseExponent mant s3
  | _ =>
    if intDigits == 0 then none
    else parseExponent (ip : ℚ) s1
where
  /-- Parse an optional exponent part after the mantissa. -/
  parseExponent (mant : ℚ) : JStr → Option (ℚ × JStr)
    | 'e' :: t => parseSignedExp mant t
    | 'E' :: t => parseSignedExp mant t
    | r => some (mant, r)
  /-- Parse the mandatory signed digits of an exponent. -/
  parseSignedExp (mant : ℚ) (t : JStr) : Option (ℚ × JStr) :=
    let (neg, t1) :=
      match t with
      | '-' :: u => (true, u)
      | '+' :: u => (false, u)
      | u => (false, u)
    if countDigits 10 t1 == 0 then none
    else
      let (e, t2) := takeDigits 10 0 t1
      some (if neg then mant / ((10 : ℚ) ^ e) else mant * ((10 : ℚ) ^ e), t2)

/-- ECMAScript `ToNumber` applied to a string (`StringToNumber`): trim
whitespace; empty means `0`; a `0x`/`0o`/`0b` radix literal, a signed
`Infinity`, or a signed decimal literal; anything else is `NaN`. -/
def strToNumber (s : JStr) : JSNumber :=
  match jsTrim s with
  | [] => fin 0
  | t =>
    match t with
    | '0' :: x :: rest =>
      if x == 'x' || x == 'X' then radix 16 rest
      else if x == 'o' || x == 'O' then radix 8 rest
      else if x == 'b' || x == 'B' then radix 2 rest
      else signedPart t
    | _ => signedPart t
where
  /-- A radix literal body: one or more digits of the base, nothing after. -/
  radix (b : Nat) (rest : JStr) : JSNumber :=
    if countDigits b rest == 0 then nan
    else
      match takeDigits b 0 rest with
      | (v, []) => fin (v : ℚ)
      | _ => nan
  /-- A signed `Infinity` or decimal literal covering the whole rest. -/
  signedPart (t : JStr) : JSNumber :=
    let (neg, t1) :=
      match t with
      | '-' :: u => (true, u)
      | '+' :: u => (false, u)
      | u => (false, u)
    match t1 with
    | 'I' :: 'n' :: 'f' :: 'i' :: 'n' :: 'i' :: 't' :: 'y' :: [] =>
      if neg then negInf else posInf
    | _ =>
      match parseDecimal t1 with
      | some (q, []) => fin (if neg then -q else q)
      | _ => nan

/-- Whether the object's field list carries an own `toString` property.
`JSON.parse` can create one (`{"toString":"x"}`); it is always a
non-callable data property, so it shadows `Object.prototype.toString`
without replacing it. -/
def hasToStringProp (l : List (JStr × JSValue)) : Bool :=
  l.any (fun p => p.1 == "toString".toList)

/-- Whether converting the value to a string (as `Array.prototype.join`
does for an array element) throws a `TypeError`: `OrdinaryToPrimitive` on
an object whose own non-callable `toString` shadows the inherited one finds
no callable conversion method (the inherited `valueOf` returns the object
itself) and throws.  Nested arrays join recursively; primitives never
throw, and an object without an own `toString` converts to
`"[object Object]"`. -/
def toStringThrows : JSValue → Bool
  | vObj l => hasToStringProp l
  | vArr [] => false
  | vArr (v :: rest) => toStringThrows v || toStringThrows (vArr rest)
  | _ => false

/-- ECMAScript `ToNumber`, with `.error` for a thrown `TypeError`.
Primitives never throw.  A plain object throws exactly when an own
non-callable `toString` property shadows the inherited one (hint-number
`OrdinaryToPrimitive` then finds no callable conversion method), and
otherwise converts through `"[object Object]"` to `NaN`.  An array converts
through its join string: the empty array to `0`, a singleton to its
element's join contribution (`null`/`undefined` empty, a number exactly —
number-to-string-to-number round-trips — a nested array recursively), and
two or more elements always contain a comma, which no numeric string does,
so they give `NaN`; the join throws when any element reachable through
nested arrays is an object with an own `toString`. -/
def toNumber : JSValue → Except Unit JSNumber
  | vUndefined => .ok nan
  | vNull => .ok (fin 0)
  | vBool b => .ok (if b then fin 1 else fin 0)
  | vNum n => .ok n
  | vStr s => .ok (strToNumber s)
  | vObj l => if hasToStringProp l then .error () else .ok nan
  | vArr [] => .ok (fin 0)
  | vArr [v] =>
    match v with
    | vNull => .ok (fin 0)
    | vUndefined => .ok (fin 0)
    | vNum n => .ok n
    | vStr s => .ok (strToNumber s)
    | vBool _ => .ok nan
    | vObj l => if hasToStringProp l then .error () else .ok nan
    | vArr l => toNumber (vArr l)
  | vArr (a :: b :: rest) =>
    if toStringThrows (vArr (a :: b :: rest)) then .error () else .ok nan

/-! ### The sanitizer (`sanitizeString`, part_001 lines 18-20) -/

/-- One pass of the global replacement of `/<[^>]*>?/` by the empty string:
outside a tag (`inTag = false`) characters are kept until a `<` opens a
match; inside a tag characters are dropped up to and including the next `>`
(or to the end of the string if none follows). -/
def stripTagsAux : Bool → JStr → JStr
  | _, [] => []
  | false, c :: rest =>
    if c = '<' then stripTagsAux true rest else c :: stripTagsAux false rest
  | true, c :: rest =>
    if c = '>' then stripTagsAux false rest else stripTagsAux true rest

/-- `str.replace(/<[^>]*>?/gm, '')`. -/
def stripTags (s : JStr) : JStr := stripTagsAux false s

/-- `sanitizeString`: strip tag-shaped substrings, trim, truncate to 255
code units. -/
def sanitizeString (s : JStr) : JStr := (jsTrim (stripTags s)).take 255

/-! ### The integrity validator (`validateReceiptIntegrity`, lines 54-88) -/

/-- A validated receipt line item (`ReceiptItem` of part_000; the optional
`originalDescription` is never produced by the validator and is not
modelled). -/
structure ReceiptItem where
  id : JStr
  quantity : JSNumber
  description : JStr
  price : JSNumber
deriving DecidableEq

/-- A validated receipt (`ReceiptData` of part_000). -/
structure ReceiptData where
  restaurantName : JStr
  date : JStr
  currency : JStr
  subtotal : JSNumber
  tax : JSNumber
  tip : JSNumber
  total : JSNumber
  items : List ReceiptItem
deriving DecidableEq

/-- `sanitizeString` applied to an arbitrary value: on a non-string,
`.replace` is not a function and a `TypeError` is thrown. -/
def jsSanitize (v : JSValue) : Except Unit JStr :=
  match v with
  | vStr s => .ok (sanitizeString s)
  | _ => .error ()

/-- The synthesized id `` `shared-${idx}` ``. -/
def sharedId (idx : Nat) : JStr := "shared-".toList ++ (Nat.repr idx).toList

/-- Field names read by the program. -/
def rnK : JStr := "restaurantName".toList

def dateK : JStr := "date".toList

def currencyK : JStr := "currency".toList

def subtotalK : JStr := "subtotal".toList

def taxK : JStr := "tax".toList

def tipK : JStr := "tip".toList

def totalK : JStr := "total".toList

def itemsK : JStr := "items".toList

def idK : JStr := "id".toList

def quantityK : JStr := "quantity".toList

def descriptionK : JStr := "description".toList

def priceK : JStr := "price".toList

/-- One element of the `items.map` callback (lines 71-76).  Reading a
property of a `null`/`undefined` element throws; `sanitizeString` of a
truthy non-string throws; `Number()` of an object with an own `toString`
throws; all are later caught by the `try/catch`. -/
def validateItem (idx : Nat) (item : JSValue) : Except Unit ReceiptItem :=
  match getFieldEx item idK with
  | .error e => .error e
  | .ok idRaw =>
    match jsSanitize (jsOr idRaw (vStr (sharedId idx))) with
    | .error e => .error e
    | .ok id =>
      match getFieldEx item quantityK with
      | .error e => .error e
      | .ok qRaw =>
        match toNumber qRaw with
        | .error e => .error e
        | .ok qn =>
          let quantity := jmaxZero (numOr qn (fin 1))
          match getFieldEx item descriptionK with
          | .error e => .error e
          | .ok dRaw =>
            match jsSanitize (jsOr dRaw (vStr "Unknown Item".toList)) with
            | .error e => .error e
            | .ok description =>
              match getFieldEx item priceK with
              | .error e => .error e
              | .ok pRaw =>
                match toNumber pRaw with
                | .error e => .error e
                | .ok pn =>
                  .ok { id := id, quantity := quantity,
                        description := description,
                        price := jmaxZero (numOr pn (fin 0)) }

/-- The item list, validated in order with its indices. -/
def validateItems (idx : Nat) : List JSValue → Except Unit (List ReceiptItem)
  | [] => .ok []
  | item :: rest =>
    match validateItem idx item with
    | .error e => .error e
    | .ok r =>
      match validateItems (idx + 1) rest with
      | .error e => .error e
      | .ok rs => .ok (r :: rs)

/-- `validateReceiptIntegrity` (lines 54-88): top-level structural checks,
then sanitization of every field in the source's evaluation order; a
thrown exception (an `.error` of any step, written out as explicit
matches) is caught by the surrounding `try/catch` and turned into `none`.
The `itemsSum` bound on line 80 is never used by the source, so it is
omitted; it cannot throw and does not affect the result. -/
def validateReceiptIntegrity (data : JSValue) : Option ReceiptData :=
  if !(truthy data && typeofObject data) then none
  else if !(getField data rnK).isStr then none
  else
    match getField data itemsK with
    | vArr itemList =>
      (match jsSanitize (getField data rnK) with
       | .error _ => none
       | .ok restaurantName =>
         match jsSanitize (jsOr (getField data dateK) (vStr [])) with
         | .error _ => none
         | .ok date =>
           match jsSanitize (jsOr (getField data currencyK)
               (vStr "$".toList)) with
           | .error _ => none
           | .ok currency =>
             match toNumber (getField data subtotalK) with
             | .error _ => none
             | .ok subn =>
               match toNumber (getField data taxK) with
               | .error _ => none
               | .ok taxn =>
                 match toNumber (getField data tipK) with
                 | .error _ => none
                 | .ok tipn =>
                   match toNumber (getField data totalK) with
                   | .error _ => none
                   | .ok totn =>
                     match validateItems 0 itemList with
                     | .error _ => none
                     | .ok items =>
                       some { restaurantName := restaurantName,
                              date := date, currency := currency,
                              subtotal := numOr subn (fin 0),
                              tax := numOr taxn (fin 0),
                              tip := numOr tipn (fin 0),
                              total := numOr totn (fin 0),
                              items := items })
    | _ => none

/-- The top-level structural checks alone (lines 56-60): a truthy value of
object type whose `restaurantName` is a string and whose `items` is an
array. -/
def passesTopLevel (data : JSValue) : Bool :=
  truthy data && typeofObject data && (getField data rnK).isStr &&
  (getField data itemsK).isArr

/-- A value sitting in a string-sanitized position is harmless when it is a
string or falsy (a truthy non-string makes `sanitizeString` throw). -/
def strOrFalsy (v : JSValue) : Bool := v.isStr || !truthy v

/-- A value sitting in a `Number()` position is harmless when its coercion
does not throw (it throws exactly when an object with an own `toString`
property is reachable, see `toNumber`). -/
def numCoercible (v : JSValue) : Bool :=
  match toNumber v with
  | .ok _ => true
  | .error _ => false

/-- An item element the validator can repair rather than throw on: not
`null`/`undefined`, with `id` and `description` a string or falsy and
`quantity` and `price` coercible. -/
def itemShapeOk (item : JSValue) : Bool :=
  notNullish item && strOrFalsy (getField item idK) &&
  strOrFalsy (getField item descriptionK) &&
  numCoercible (getField item quantityK) &&
  numCoercible (getField item priceK)

/-- The shape conditions under which the validator body cannot throw:
`date` and `currency` a string or falsy, the four money fields coercible,
and every item element repairable. -/
def docShapeOk (data : JSValue) : Bool :=
  strOrFalsy (getField data dateK) && strOrFalsy (getField data currencyK) &&
  numCoercible (getField data subtotalK) &&
  numCoercible (getField data taxK) &&
  numCoercible (getField data tipK) &&
  numCoercible (getField data totalK) &&
  (match getField data itemsK with
   | vArr l => l.all itemShapeOk
   | _ => true)

/-! ### The allocation engine (`calculations`, lines 181-202) -/

/-- One party's claim state for one item (`UserSelection` of part_000). -/
structure UserSelection where
  itemId : JStr
  splitCount : JSNumber
  isSelected : Bool
deriving DecidableEq

/-- The derived totals (`calculations` result shape). -/
structure CalcResult where
  subtotal : JSNumber
  tax : JSNumber
  tip : JSNumber
  total : JSNumber
  ratio : JSNumber
deriving DecidableEq

/-- `items.reduce((acc, item) => acc + item.price, 0)` (lines 80 and 192). -/
def itemsSum (items : List ReceiptItem) : JSNumber :=
  items.foldl (fun acc item => jadd acc item.price) (fin 0)

/-- The local `userSubtotal` of `calculations` (lines 185-190): the
selected selections folded left, each adding `item.price / sel.splitCount`
when `sel.itemId` finds an item and leaving the accumulator unchanged
otherwise. -/
def userSubtotalOf (receipt : ReceiptData)
    (selections : List UserSelection) : JSNumber :=
  (selections.filter (fun s => s.isSelected)).foldl
    (fun acc sel =>
      match receipt.items.find? (fun i => i.id == sel.itemId) with
      | some item => jadd acc (jdiv item.price sel.splitCount)
      | none => acc)
    (fin 0)

/-- The `useMemo` body of `calculations` (lines 181-202).  The selection
map's `Object.values` is modelled as the list of selections in insertion
order. -/
def calculations (receipt : Option ReceiptData)
    (selections : List UserSelection) : CalcResult :=
  match receipt with
  | none => { subtotal := fin 0, tax := fin 0, tip := fin 0, total := fin 0,
              ratio := fin 0 }
  | some receipt =>
    let userSubtotal := userSubtotalOf receipt selections
    let receiptSubtotal :=
      if numTruthy receipt.subtotal then receipt.subtotal
      else itemsSum receipt.items
    let userRatio :=
      if jgt receiptSubtotal (fin 0) then jdiv userSubtotal receiptSubtotal
      else fin 0
    { subtotal := userSubtotal,
      tax := jmul (numOr receipt.tax (fin 0)) userRatio,
      tip := jmul (numOr receipt.tip (fin 0)) userRatio,
      total := jadd (jadd userSubtotal (jmul (numOr receipt.tax (fin 0)) userRatio))
        (jmul (numOr receipt.tip (fin 0)) userRatio),
      ratio := userRatio }

/-! ### The claim's allocation formula (spec §4.4, claim C1)

`claimAllocation` is written from the words of the spec sentence it
formalises (a refinement comparison target), not from the source: in
particular its `receiptSubtotal` falls back to the item sum unless
`Receipt.subtotal` *is a positive number*.  `claimAllocationAmended` is the
same formula with that one clause weakened to the source's truthiness test
(nonzero). -/

/-- Whether the number is positive (the spec's "a positive number"). -/
def isPositiveNum (n : JSNumber) : Bool := jgt n (fin 0)

/-- The claim's `claimedSubtotal`: the sum, over the selections with
`isSelected = true`, of `item.price / selection.splitCount`, a selection
whose `itemId` matches no item contributing `0`. -/
def claimClaimedSubtotal (r : ReceiptData) (selections : List UserSelection) :
    JSNumber :=
  (selections.filter (fun s => s.isSelected)).foldl
    (fun acc sel =>
      jadd acc
        (match r.items.find? (fun i => i.id == sel.itemId) with
         | some item => jdiv item.price sel.splitCount
         | none => fin 0))
    (fin 0)

/-- Claim C1's allocation, word for word: `receiptSubtotal` is
`Receipt.subtotal` if it is a positive number, otherwise the item sum;
`ratio` is `claimedSubtotal / receiptSubtotal` when `receiptSubtotal > 0`
and `0` otherwise; tax and tip scale by `ratio` and the total is their sum
with the claimed subtotal. -/
def claimAllocation (r : ReceiptData) (selections : List UserSelection) :
    CalcResult :=
  let claimedSubtotal := claimClaimedSubtotal r selections
  let receiptSubtotal :=
    if isPositiveNum r.subtotal then r.subtotal else itemsSum r.items
  let ratio :=
    if jgt receiptSubtotal (fin 0) then jdiv claimedSubtotal receiptSubtotal
    else fin 0
  { subtotal := claimedSubtotal,
    tax := jmul r.tax ratio,
    tip := jmul r.tip ratio,
    total := jadd (jadd claimedSubtotal (jmul r.tax ratio)) (jmul r.tip ratio),
    ratio := ratio }

/-- Claim C1 amended: identical except that `receiptSubtotal` keeps
`Receipt.subtotal` whenever it is truthy (nonzero, `NaN` excluded), which
is what `receipt.subtotal || ...` tests. -/
def claimAllocationAmended (r : ReceiptData)
    (selections : List UserSelection) : CalcResult :=
  let claimedSubtotal := claimClaimedSubtotal r selections
  let receiptSubtotal :=
    if numTruthy r.subtotal then r.subtotal else itemsSum r.items
  let ratio :=
    if jgt receiptSubtotal (fin 0) then jdiv claimedSubtotal receiptSubtotal
    else fin 0
  { subtotal := claimedSubtotal,
    tax := jmul r.tax ratio,
    tip := jmul r.tip ratio,
    total := jadd (jadd claimedSubtotal (jmul r.tax ratio)) (jmul r.tip ratio),
    ratio := ratio }

/-! ### The share-link codec (`generateShareLink`, lines 204-234)

The transport layers — `JSON.stringify`/`JSON.parse` of the payload,
`safeBtoa`/`safeAtob` (UTF-8 base64) and
`encodeURIComponent`/`decodeURIComponent` — are exact mutual inverses on
every token `generateShareLink` produces, so the codec is modelled at the
parsed-JSON level: `encodeToken` is the `JSValue` that `JSON.parse` yields
on the decode side, with `JSON.stringify` serialising the non-finite
numbers `NaN`/`±Infinity` as `null` (which the model keeps).  Decoding then
passes the payload through the validator, exactly as `handleHashChange`
does. -/

/-- `JSON.stringify`-then-`parse` image of one number: non-finite numbers
serialise as `null`. -/
def numToJson : JSNumber → JSValue
  | fin q => vNum (fin q)
  | _ => vNull

/-- The minimal projection of one item built by `generateShareLink`
(lines 215-220). -/
def itemToJson (i : ReceiptItem) : JSValue :=
  vObj [(idK, vStr i.id), (quantityK, numToJson i.quantity),
        (descriptionK, vStr i.description), (priceK, numToJson i.price)]

/-- The `minifiedReceipt` payload of `generateShareLink` (lines 207-221), as
the value the decode side parses back. -/
def encodeToken (r : ReceiptData) : JSValue :=
  vObj [(rnK, vStr r.restaurantName), (dateK, vStr r.date),
        (currencyK, vStr r.currency), (subtotalK, numToJson r.subtotal),
        (taxK, numToJson r.tax), (tipK, numToJson r.tip),
        (totalK, numToJson r.total),
        (itemsK, vArr (r.items.map itemToJson))]

/-- The decode side of the codec: the parsed payload goes through the
validator (line 107). -/
def decodeToken (payload : JSValue) : Option ReceiptData :=
  validateReceiptIntegrity payload

/-- A string field that re-validation leaves unchanged. -/
def stableStr (s : JStr) : Bool := sanitizeString s == s

/-- An item that re-validation reproduces exactly: nonempty
sanitization-stable `id` and `description`, finite positive `quantity`,
finite non-negative `price`. -/
def stableItem (i : ReceiptItem) : Bool :=
  !i.id.isEmpty && stableStr i.id && !i.description.isEmpty &&
  stableStr i.description &&
  (match i.quantity with
   | fin q => decide (0 < q)
   | _ => false) &&
  (match i.price with
   | fin p => decide (0 ≤ p)
   | _ => false)

/-- A receipt that re-validation reproduces exactly: sanitization-stable
name and date, nonempty sanitization-stable currency, finite money fields,
stable items. -/
def stableReceipt (r : ReceiptData) : Bool :=
  stableStr r.restaurantName && stableStr r.date && !r.currency.isEmpty &&
  stableStr r.currency &&
  (match r.subtotal with | fin _ => true | _ => false) &&
  (match r.tax with | fin _ => true | _ => false) &&
  (match r.tip with | fin _ => true | _ => false) &&
  (match r.total with | fin _ => true | _ => false) &&
  r.items.all stableItem

/-! ### The deep-link decode pipeline (`handleHashChange`, lines 99-128)

The browser built-ins on the decode path are modelled faithfully:
`decodeURIComponent` throws (`none`) on a malformed percent sequence,
`atob` follows the forgiving-base64 algorithm and throws on a character
outside the alphabet or a bad length, and `TextDecoder().decode` replaces
invalid UTF-8 with U+FFFD and never throws.  Code points above U+FFFF are
modelled as single characters rather than surrogate pairs. -/

/-- Two hexadecimal digits, as a byte and the rest. -/
def hex2? : JStr → Option (Nat × JStr)
  | h1 :: h2 :: rest =>
    match digitVal? 16 h1, digitVal? 16 h2 with
    | some a, some b => some (a * 16 + b, rest)
    | _, _ => none
  | _ => none

/-- A `%XX` escape, as a byte and the rest. -/
def pctByte? : JStr → Option (Nat × JStr)
  | '%' :: rest => hex2? rest
  | _ => none

/-- `decodeURIComponent`: percent escapes must form valid (shortest-form)
UTF-8; anything else throws `URIError` (`none`).  Unescaped characters pass
through unchanged.  The fuel is one more than the length, ample since every
step consumes at least one character. -/
def pctDecodeAux : Nat → JStr → Option JStr
  | 0, _ => none
  | _ + 1, [] => some []
  | fuel + 1, '%' :: rest => do
    let (b1, r1) ← hex2? rest
    if b1 < 0x80 then do
      let tail ← pctDecodeAux fuel r1
      pure (Char.ofNat b1 :: tail)
    else if 0xC2 ≤ b1 ∧ b1 ≤ 0xDF then do
      let (b2, r2) ← pctByte? r1
      if 0x80 ≤ b2 ∧ b2 ≤ 0xBF then do
        let tail ← pctDecodeAux fuel r2
        pure (Char.ofNat ((b1 - 0xC0) * 0x40 + (b2 - 0x80)) :: tail)
      else none
    else if 0xE0 ≤ b1 ∧ b1 ≤ 0xEF then do
      let (b2, r2) ← pctByte? r1
      let lo := if b1 = 0xE0 then 0xA0 else 0x80
      let hi := if b1 = 0xED then 0x9F else 0xBF
      if lo ≤ b2 ∧ b2 ≤ hi then do
        let (b3, r3) ← pctByte? r2
        if 0x80 ≤ b3 ∧ b3 ≤ 0xBF then do
          let tail ← pctDecodeAux fuel r3
          pure (Char.ofNat ((b1 - 0xE0) * 0x1000 + (b2 - 0x80) * 0x40 +
            (b3 - 0x80)) :: tail)
        else none
      else none
    else if 0xF0 ≤ b1 ∧ b1 ≤ 0xF4 then do
      let (b2, r2) ← pctByte? r1
      let lo := if b1 = 0xF0 then 0x90 else 0x80
      let hi := if b1 = 0xF4 then 0x8F else 0xBF
      if lo ≤ b2 ∧ b2 ≤ hi then do
        let (b3, r3) ← pctByte? r2
        if 0x80 ≤ b3 ∧ b3 ≤ 0xBF then do
          let (b4, r4) ← pctByte? r3
          if 0x80 ≤ b4 ∧ b4 ≤ 0xBF then do
            let tail ← pctDecodeAux fuel r4
            pure (Char.ofNat ((b1 - 0xF0) * 0x40000 + (b2 - 0x80) * 0x1000 +
              (b3 - 0x80) * 0x40 + (b4 - 0x80)) :: tail)
          else none
        else none
      else none
    else none
  | fuel + 1, c :: rest => do
    let tail ← pctDecodeAux fuel rest
    pure (c :: tail)

/-- `decodeURIComponent`, with `none` for a thrown `URIError`. -/
def pctDecode (s : JStr) : Option JStr := pctDecodeAux (s.length + 1) s

/-- ASCII whitespace stripped by forgiving-base64. -/
def isB64Ws (c : Char) : Bool :=
  c == ' ' || c == '\t' || c == '\n' || Char.ofNat 0xC == c || c == '\r'

/-- The base64 alphabet value of a character, if any. -/
def b64Val? (c : Char) : Option Nat :=
  let n := c.toNat
  if 0x41 ≤ n ∧ n ≤ 0x5A then some (n - 0x41)
  else if 0x61 ≤ n ∧ n ≤ 0x7A then some (n - 0x61 + 26)
  else if 0x30 ≤ n ∧ n ≤ 0x39 then some (n - 0x30 + 52)
  else if c = '+' then some 62
  else if c = '/' then some 63
  else none

/-- All characters converted to sextets, or `none` on the first character
outside the alphabet. -/
def b64Sextets : JStr → Option (List Nat)
  | [] => some []
  | c :: rest => do
    let v ← b64Val? c
    let vs ← b64Sextets rest
    pure (v :: vs)

/-- Pack sextets into bytes: full groups of four give three bytes, a final
remainder of two or three sextets gives one or two bytes (excess bits
discarded). -/
def sextetsToBytes : List Nat → List Nat
  | a :: b :: c :: d :: rest =>
    (a * 4 + b / 16) :: ((b % 16) * 16 + c / 4) :: ((c % 4) * 64 + d) ::
      sextetsToBytes rest
  | [a, b] => [a * 4 + b / 16]
  | [a, b, c] => [a * 4 + b / 16, (b % 16) * 16 + c / 4]
  | _ => []

/-- `atob` (forgiving-base64 decode): strip ASCII whitespace, strip up to
two trailing `=` when the length is a multiple of four, reject a length
congruent to 1 mod 4 and any character outside the alphabet. -/
def atobForgiving (s : JStr) : Option (List Nat) :=
  let t := s.filter (fun c => !isB64Ws c)
  let t :=
    if t.length % 4 == 0 then
      (match t.reverse with
       | '=' :: '=' :: rest => rest.reverse
       | '=' :: rest => rest.reverse
       | _ => t)
    else t
  if t.length % 4 == 1 then none
  else (b64Sextets t).map sextetsToBytes

/-- The replacement character U+FFFD. -/
def fffd : Char := Char.ofNat 0xFFFD

/-- UTF-8 decoding with replacement (`TextDecoder().decode`, non-fatal):
on an invalid sequence the maximal subpart is replaced by U+FFFD and
decoding resumes at the offending byte. -/
def utf8DecodeAux : Nat → List Nat → JStr
  | 0, _ => []
  | _ + 1, [] => []
  | fuel + 1, b :: rest =>
    if b < 0x80 then Char.ofNat b :: utf8DecodeAux fuel rest
    else if 0xC2 ≤ b ∧ b ≤ 0xDF then
      match rest with
      | b2 :: r2 =>
        if 0x80 ≤ b2 ∧ b2 ≤ 0xBF then
          Char.ofNat ((b - 0xC0) * 0x40 + (b2 - 0x80)) :: utf8DecodeAux fuel r2
        else fffd :: utf8DecodeAux fuel rest
      | [] => [fffd]
    else if 0xE0 ≤ b ∧ b ≤ 0xEF then
      match rest with
      | b2 :: r2 =>
        let lo := if b = 0xE0 then 0xA0 else 0x80
        let hi := if b = 0xED then 0x9F else 0xBF
        if lo ≤ b2 ∧ b2 ≤ hi then
          match r2 with
          | b3 :: r3 =>
            if 0x80 ≤ b3 ∧ b3 ≤ 0xBF then
              Char.ofNat ((b - 0xE0) * 0x1000 + (b2 - 0x80) * 0x40 +
                (b3 - 0x80)) :: utf8DecodeAux fuel r3
            else fffd :: utf8DecodeAux fuel r2
          | [] => [fffd]
        else fffd :: utf8DecodeAux fuel rest
      | [] => [fffd]
    else if 0xF0 ≤ b ∧ b ≤ 0xF4 then
      match rest with
      | b2 :: r2 =>
        let lo := if b = 0xF0 then 0x90 else 0x80
        let hi := if b = 0xF4 then 0x8F else 0xBF
        if lo ≤ b2 ∧ b2 ≤ hi then
          match r2 with
          | b3 :: r3 =>
            if 0x80 ≤ b3 ∧ b3 ≤ 0xBF then
              match r3 with
              | b4 :: r4 =>
                if 0x80 ≤ b4 ∧ b4 ≤ 0xBF then
                  Char.ofNat ((b - 0xF0) * 0x40000 + (b2 - 0x80) * 0x1000 +
                    (b3 - 0x80) * 0x40 + (b4 - 0x80)) :: utf8DecodeAux fuel r4
                else fffd :: utf8DecodeAux fuel r3
              | [] => [fffd]
            else fffd :: utf8DecodeAux fuel r2
          | [] => [fffd]
        else fffd :: utf8DecodeAux fuel rest
      | [] => [fffd]
    else fffd :: utf8DecodeAux fuel rest

/-- UTF-8 bytes to text, with replacement. -/
def utf8DecodeReplace (bytes : List Nat) : JStr :=
  utf8DecodeAux (bytes.length + 1) bytes

/-- `safeAtob` (lines 36-48): `atob` then `TextDecoder().decode`; a thrown
decoding error is caught and the empty string returned. -/
def safeAtob (base64 : JStr) : JStr :=
  match atobForgiving base64 with
  | some bytes => utf8DecodeReplace bytes
  | none => []

/-! ### `JSON.parse` -/

/-- JSON insignificant whitespace. -/
def skipWsJson (s : JStr) : JStr :=
  s.dropWhile (fun c => c == ' ' || c == '\t' || c == '\n' || c == '\r')

/-- The body of a JSON string after its opening quote: the string's
characters and the rest of the input.  Control characters are rejected;
`\uXXXX` escapes combine surrogate pairs (an unpaired surrogate, which
Lean's `Char` cannot carry, becomes U+FFFD — immaterial to any claim).
The fuel bounds the recursion; every step consumes at least one
character. -/
def jsonStringAux : Nat → JStr → Option (JStr × JStr)
  | 0, _ => none
  | _ + 1, [] => none
  | _ + 1, '"' :: rest => some ([], rest)
  | fuel + 1, '\\' :: 'u' :: h1 :: h2 :: h3 :: h4 :: rest =>
    (match digitVal? 16 h1, digitVal? 16 h2, digitVal? 16 h3,
        digitVal? 16 h4 with
     | some a, some b, some c, some d =>
       let v := ((a * 16 + b) * 16 + c) * 16 + d
       if 0xD800 ≤ v ∧ v ≤ 0xDBFF then
         match rest with
         | '\\' :: 'u' :: k1 :: k2 :: k3 :: k4 :: rest2 =>
           (match digitVal? 16 k1, digitVal? 16 k2, digitVal? 16 k3,
               digitVal? 16 k4 with
            | some a2, some b2, some c2, some d2 =>
              let w := ((a2 * 16 + b2) * 16 + c2) * 16 + d2
              if 0xDC00 ≤ w ∧ w ≤ 0xDFFF then do
                let (tail, r) ← jsonStringAux fuel rest2
                pure (Char.ofNat (0x10000 + (v - 0xD800) * 0x400 +
                  (w - 0xDC00)) :: tail, r)
              else do
                let (tail, r) ← jsonStringAux fuel rest
                pure (fffd :: tail, r)
            | _, _, _, _ => do
              let (tail, r) ← jsonStringAux fuel rest
              pure (fffd :: tail, r))
         | _ => do
           let (tail, r) ← jsonStringAux fuel rest
           pure (fffd :: tail, r)
       else if 0xDC00 ≤ v ∧ v ≤ 0xDFFF then do
         let (tail, r) ← jsonStringAux fuel rest
         pure (fffd :: tail, r)
       else do
         let (tail, r) ← jsonStringAux fuel rest
         pure (Char.ofNat v :: tail, r)
     | _, _, _, _ => none)
  | fuel + 1, '\\' :: e :: rest =>
    (match e with
     | '"' => some '"'
     | '\\' => some '\\'
     | '/' => some '/'
     | 'b' => some (Char.ofNat 0x8)
     | 'f' => some (Char.ofNat 0xC)
     | 'n' => some (Char.ofNat 0xA)
     | 'r' => some (Char.ofNat 0xD)
     | 't' => some (Char.ofNat 0x9)
     | _ => none).bind fun c => do
      let (tail, r) ← jsonStringAux fuel rest
      pure (c :: tail, r)
  | fuel + 1, c :: rest =>
    if c.toNat < 0x20 then none
    else do
      let (tail, r) ← jsonStringAux fuel rest
      pure (c :: tail, r)

/-- The body of a JSON string after its opening quote. -/
def jsonString? (s : JStr) : Option (JStr × JStr) :=
  jsonStringAux (s.length + 1) s

/-- A JSON number literal: `-? (0 | [1-9][0-9]*) (. [0-9]+)? ([eE][+-]?[0-9]+)?`,
exact rational value.  A leading zero stops the integer part — any
following digit then makes the document unparsable at the caller, as it
does for `JSON.parse`. -/
def jsonNumber? (s : JStr) : Option (ℚ × JStr) :=
  let (neg, s1) :=
    match s with
    | '-' :: u => (true, u)
    | u => (false, u)
  match s1 with
  | '0' :: rest => afterInt neg 0 rest
  | c :: _ =>
    if (digitVal? 10 c).isSome ∧ c ≠ '0' then
      let (ip, rest) := takeDigits 10 0 s1
      afterInt neg ip rest
    else none
  | [] => none
where
  /-- The optional fraction and exponent after the integer part. -/
  afterInt (neg : Bool) (ip : Nat) (rest : JStr) : Option (ℚ × JStr) :=
    let withFrac : Option (ℚ × JStr) :=
      match rest with
      | '.' :: r2 =>
        let fracDigits := countDigits 10 r2
        if fracDigits == 0 then none
        else
          let (fp, r3) := takeDigits 10 0 r2
          some ((ip : ℚ) + (fp : ℚ) / ((10 : ℚ) ^ fracDigits), r3)
      | _ => some ((ip : ℚ), rest)
    match withFrac with
    | none => none
    | some (mant, r4) =>
      match r4 with
      | 'e' :: t => withExp neg mant t
      | 'E' :: t => withExp neg mant t
      | _ => some (if neg then -mant else mant, r4)
  /-- The mandatory signed digits of an exponent. -/
  withExp (neg : Bool) (mant : ℚ) (t : JStr) : Option (ℚ × JStr) :=
    let (eneg, t1) :=
      match t with
      | '-' :: u => (true, u)
      | '+' :: u => (false, u)
      | u => (false, u)
    if countDigits 10 t1 == 0 then none
    else
      let (e, t2) := takeDigits 10 0 t1
      let v := if eneg then mant / ((10 : ℚ) ^ e) else mant * ((10 : ℚ) ^ e)
      some (if neg then -v else v, t2)

mutual

/-- A JSON value and the rest of the input.  The fuel bounds the call
depth; `2 * length + 2` is ample (each level of nesting and each list
element consumes input). -/
def jsonValue : Nat → JStr → Option (JSValue × JStr)
  | 0, _ => none
  | fuel + 1, s =>
    match s with
    | 'n' :: 'u' :: 'l' :: 'l' :: r => some (vNull, r)
    | 't' :: 'r' :: 'u' :: 'e' :: r => some (vBool true, r)
    | 'f' :: 'a' :: 'l' :: 's' :: 'e' :: r => some (vBool false, r)
    | '"' :: r => (jsonString? r).map fun p => (vStr p.1, p.2)
    | '[' :: r =>
      (match skipWsJson r with
       | ']' :: r2 => some (vArr [], r2)
       | r1 => jsonElems fuel r1 [])
    | '{' :: r =>
      (match skipWsJson r with
       | '}' :: r2 => some (vObj [], r2)
       | r1 => jsonMembers fuel r1 [])
    | _ => (jsonNumber? s).map fun p => (vNum (fin p.1), p.2)

/-- The elements of a JSON array after its opening bracket. -/
def jsonElems : Nat → JStr → List JSValue → Option (JSValue × JStr)
  | 0, _, _ => none
  | fuel + 1, s, acc => do
    let (v, r) ← jsonValue fuel s
    match skipWsJson r with
    | ',' :: r2 => jsonElems fuel (skipWsJson r2) (v :: acc)
    | ']' :: r2 => some (vArr (v :: acc).reverse, r2)
    | _ => none

/-- The members of a JSON object after its opening brace. -/
def jsonMembers : Nat → JStr → List (JStr × JSValue) →
    Option (JSValue × JStr)
  | 0, _, _ => none
  | fuel + 1, s, acc =>
    match s with
    | '"' :: r => do
      let (key, r1) ← jsonString? r
      match skipWsJson r1 with
      | ':' :: r2 => do
        let (v, r3) ← jsonValue fuel (skipWsJson r2)
        match skipWsJson r3 with
        | ',' :: r4 => jsonMembers fuel (skipWsJson r4) ((key, v) :: acc)
        | '}' :: r4 => some (vObj ((key, v) :: acc).reverse, r4)
        | _ => none
      | _ => none
    | _ => none

end

/-- `JSON.parse`: one value covering the whole text up to whitespace;
`none` models a thrown `SyntaxError`. -/
def jsonParse (s : JStr) : Option JSValue :=
  match jsonValue (2 * s.length + 2) (skipWsJson s) with
  | some (v, rest) => if (skipWsJson rest).isEmpty then some v else none
  | none => none

/-! ### The hash-change handler (lines 99-128) -/

/-- The application navigation states (`AppState` of part_000). -/
inductive AppScreen where
  | HOME | CAMERA | PROCESSING | CONFIRM_INFO | SELECT_ITEMS | SUMMARY
deriving DecidableEq

/-- The slice of component state `handleHashChange` touches. -/
structure AppSt where
  appState : AppScreen
  receipt : Option ReceiptData
  error : Option JStr
deriving DecidableEq

/-- The error message surfaced for an invalid deep link (line 119). -/
def linkInvalidMsg : JStr :=
  "The shared link is invalid or has been tampered with.".toList

/-- The state after the initial `useState` calls (lines 91-96). -/
def initialAppSt : AppSt :=
  { appState := .HOME, receipt := none, error := none }

/-- `handleHashChange` on a hash fragment (the part after `#`): short
hashes are ignored; a `URIError` from `decodeURIComponent`, a
`SyntaxError` from `JSON.parse` or a validation failure land in the
`catch`, which surfaces the invalid-link error and falls back to `HOME`;
an `atob` failure is swallowed by `safeAtob` (empty string) and the empty
string is silently skipped. -/
def handleHashChange (hash : JStr) (st : AppSt) : AppSt :=
  if truthy (vStr hash) && decide (hash.length > 10) then
    match pctDecode hash with
    | none => { st with appState := .HOME, error := some linkInvalidMsg }
    | some uri =>
      let jsonStr := safeAtob uri
      if !jsonStr.isEmpty then
        match jsonParse jsonStr with
        | none => { st with appState := .HOME, error := some linkInvalidMsg }
        | some rawData =>
          match validateReceiptIntegrity rawData with
          | some validated =>
            { st with receipt := some validated, appState := .CONFIRM_INFO,
                      error := none }
          | none => { st with appState := .HOME, error := some linkInvalidMsg }
      else st
  else st

/-! ### Concrete inputs used by the counterexamples and witnesses -/

/-- A structurally valid payload whose `subtotal` is the number `-5`
(reachable through a shared link, e.g. the hash of
`{"restaurantName":"R","items":[],"subtotal":-5}`). -/
def negSubtotalInput : JSValue :=
  vObj [(rnK, vStr "R".toList), (itemsK, vArr []),
        (subtotalK, vNum (fin (-5)))]

/-- What the validator returns on `negSubtotalInput`. -/
def negSubtotalReceipt : ReceiptData :=
  { restaurantName := "R".toList, date := [], currency := "$".toList,
    subtotal := fin (-5), tax := fin 0, tip := fin 0, total := fin 0,
    items := [] }

/-- A payload passing the top-level checks whose `date` is the (truthy)
number `123`, so `sanitizeString(data.date || '')` throws. -/
def numericDateInput : JSValue :=
  vObj [(rnK, vStr "R".toList), (dateK, vNum (fin 123)), (itemsK, vArr [])]

/-- A payload with one item missing `id`, `quantity` and `price` and all
string positions harmless: the validator repairs it with defaults. -/
def repairableInput : JSValue :=
  vObj [(rnK, vStr "R".toList),
        (itemsK, vArr [vObj [(descriptionK, vStr "x".toList)]])]

/-- A structurally well-formed payload with one item of price `30` and a
`total` of `100` — the item prices do not reconcile with the total. -/
def mismatchInput : JSValue :=
  vObj [(rnK, vStr "R".toList),
        (itemsK, vArr [vObj [(idK, vStr "a".toList),
          (quantityK, vNum (fin 1)), (descriptionK, vStr "x".toList),
          (priceK, vNum (fin 30))]]),
        (totalK, vNum (fin 100))]

/-- A payload validating to a receipt with a negative `subtotal` and one
priced item — the receipt on which the claimed allocation formula and the
code diverge. -/
def negSubItemInput : JSValue :=
  vObj [(rnK, vStr "R".toList),
        (itemsK, vArr [vObj [(idK, vStr "a".toList),
          (quantityK, vNum (fin 1)), (descriptionK, vStr "x".toList),
          (priceK, vNum (fin 10))]]),
        (subtotalK, vNum (fin (-5))), (taxK, vNum (fin 1))]

/-- What the validator returns on `negSubItemInput`. -/
def negSubItemReceipt : ReceiptData :=
  { restaurantName := "R".toList, date := [], currency := "$".toList,
    subtotal := fin (-5), tax := fin 1, tip := fin 0, total := fin 0,
    items := [{ id := "a".toList, quantity := fin 1,
                description := "x".toList, price := fin 10 }] }

/-- The claiming party selects the only item, unsplit. -/
def singleSelection : List UserSelection :=
  [{ itemId := "a".toList, splitCount := fin 1, isSelected := true }]

/-- A payload validating to a receipt whose item quantity is `0` (the
clamp of the input quantity `-3`) — that receipt does not round-trip. -/
def negQuantityInput : JSValue :=
  vObj [(rnK, vStr "R".toList),
        (itemsK, vArr [vObj [(idK, vStr "a".toList),
          (quantityK, vNum (fin (-3))), (descriptionK, vStr "x".toList),
          (priceK, vNum (fin 5))]])]

/-- What the validator returns on `negQuantityInput`: note the quantity
`0`. -/
def negQuantityReceipt : ReceiptData :=
  { restaurantName := "R".toList, date := [], currency := "$".toList,
    subtotal := fin 0, tax := fin 0, tip := fin 0, total := fin 0,
    items := [{ id := "a".toList, quantity := fin 0,
                description := "x".toList, price := fin 5 }] }

/-- A validation-stable receipt (used to witness the amended round-trip
claim). -/
def stableExample : ReceiptData :=
  { restaurantName := "A".toList, date := [], currency := "$".toList,
    subtotal := fin 30, tax := fin 3, tip := fin 6, total := fin 39,
    items := [{ id := "a".toList, quantity := fin 1,
                description := "x".toList, price := fin 20 }] }

/-- The spec's worked allocation example (§8): items `a` (20) and `b` (10),
subtotal 30, tax 3, tip 6. -/
def workedReceipt : ReceiptData :=
  { restaurantName := "R".toList, date := [], currency := "$".toList,
    subtotal := fin 30, tax := fin 3, tip := fin 6, total := fin 39,
    items := [{ id := "a".toList, quantity := fin 1,
                description := "A".toList, price := fin 20 },
              { id := "b".toList, quantity := fin 1,
                description := "B".toList, price := fin 10 }] }

/-- Item `a` claimed split two ways; `b` unselected. -/
def workedSelections : List UserSelection :=
  [{ itemId := "a".toList, splitCount := fin 2, isSelected := true },
   { itemId := "b".toList, splitCount := fin 1, isSelected := false }]

/-- A selection referencing no item of `workedReceipt`. -/
def staleSelection : UserSelection :=
  { itemId := "zzz".toList, splitCount := fin 2, isSelected := true }

/-- A hash fragment that is not valid base64: `atob` throws inside
`safeAtob`, which returns the empty string. -/
def bangToken : JStr := "!!!!!!!!!!!".toList

/-- Another hash fragment with the same silent fate, used by the witness. -/
def starToken : JStr := "***********".toList

/-- A 256-character string (no tags, no leading/trailing whitespace) whose
sanitized form ends in the whitespace exposed by the 255-character
truncation. -/
def truncEdgeStr : JStr := 'a' :: (List.replicate 254 ' ' ++ ['b'])

/-! ## Sanitizer lemmas -/

theorem stripTagsAux_not_mem_lt (l : JStr) :
    ∀ m : Bool, '<' ∉ stripTagsAux m l := by
  induction l with
  | nil => intro m; cases m <;> simp [stripTagsAux]
  | cons c rest ih =>
    intro m
    cases m with
    | false =>
      by_cases hc : c = '<'
      · simpa [stripTagsAux, hc] using ih true
      · simp only [stripTagsAux, if_neg hc, List.mem_cons, not_or]
        exact ⟨fun e => hc e.symm, ih false⟩
    | true =>
      by_cases hc : c = '>'
      · simpa [stripTagsAux, hc] using ih false
      · simpa [stripTagsAux, hc] using ih true

theorem stripTags_not_mem_lt (s : JStr) : '<' ∉ stripTags s :=
  stripTagsAux_not_mem_lt s false

theorem stripTags_eq_self {l : JStr} (h : '<' ∉ l) : stripTags l = l := by
  unfold stripTags
  induction l with
  | nil => rfl
  | cons c rest ih =>
    simp only [List.mem_cons, not_or] at h
    have hc : ¬ (c = '<') := fun e => h.1 e.symm
    simp only [stripTagsAux, if_neg hc]
    exact congrArg (c :: ·) (ih h.2)

theorem mem_of_mem_jsTrim {a : Char} {l : JStr} (h : a ∈ jsTrim l) :
    a ∈ l := by
  unfold jsTrim at h
  exact (List.dropWhile_sublist isJsWs).subset
    ((List.rdropWhile_prefix isJsWs (l.dropWhile isJsWs)).sublist.subset h)

theorem dropWhile_rdropWhile_dropWhile (l : JStr) :
    ((l.dropWhile isJsWs).rdropWhile isJsWs).dropWhile isJsWs =
      (l.dropWhile isJsWs).rdropWhile isJsWs := by
  obtain ⟨t, ht⟩ := List.rdropWhile_prefix isJsWs (l.dropWhile isJsWs)
  cases hY : (l.dropWhile isJsWs).rdropWhile isJsWs with
  | nil => simp
  | cons y ys =>
    rw [hY] at ht
    simp only [List.cons_append] at ht
    have hX : (l.dropWhile isJsWs).dropWhile isJsWs = l.dropWhile isJsWs :=
      List.dropWhile_idempotent _ _
    rw [← ht] at hX
    have hpy : ¬ isJsWs y = true := by
      intro hp
      rw [List.dropWhile_cons, if_pos hp] at hX
      have hlen := congrArg List.length hX
      have hle := (List.dropWhile_sublist (l := ys ++ t) isJsWs).length_le
      simp only [List.length_cons] at hlen
      omega
    rw [List.dropWhile_cons, if_neg hpy]

theorem jsTrim_idempotent (l : JStr) : jsTrim (jsTrim l) = jsTrim l := by
  unfold jsTrim
  rw [dropWhile_rdropWhile_dropWhile]
  exact List.rdropWhile_idempotent _ _

/-! ## Claims C9, C10, C4 -/

/-- C9: for every string `s`, the length of `sanitizeString s` is at most
255 characters. -/
theorem c9_sanitize_length_le_255 (s : JStr) :
    (sanitizeString s).length ≤ 255 := by
  unfold sanitizeString
  simp only [List.length_take]
  omega

/-- C10: for every string `s`, `sanitizeString s` contains no `<`
character: every `<` begins a match of the tag-stripping pattern and is
removed. -/
theorem c10_sanitize_no_lt (s : JStr) : '<' ∉ sanitizeString s := by
  intro h
  exact stripTags_not_mem_lt s
    (mem_of_mem_jsTrim (List.take_subset _ _ h))

/-- C4 counterexample: on a 256-character tag-free trimmed string the
truncation to 255 characters exposes trailing whitespace, which a second
application trims away, so `sanitizeString` is not idempotent. -/
theorem c4_counterexample :
    sanitizeString (sanitizeString truncEdgeStr) ≠
      sanitizeString truncEdgeStr := by decide

/-- C4 amended: `sanitizeString` is idempotent on every string whose
tag-stripped, trimmed form fits in 255 characters (equivalently, whenever
the final truncation does not cut the string and so cannot expose trailing
whitespace). -/
theorem c4_sanitize_idem_of_short (s : JStr)
    (h : (jsTrim (stripTags s)).length ≤ 255) :
    sanitizeString (sanitizeString s) = sanitizeString s := by
  have h1 : sanitizeString s = jsTrim (stripTags s) :=
    List.take_of_length_le h
  rw [h1]
  unfold sanitizeString
  rw [stripTags_eq_self
        (fun hm => stripTags_not_mem_lt s (mem_of_mem_jsTrim hm)),
      jsTrim_idempotent, List.take_of_length_le h]

/-- C4 witness: the amended idempotence applies to a concrete tagged,
padded string. -/
theorem c4_witness :
    (jsTrim (stripTags "  <b>hi</b>  ".toList)).length ≤ 255 ∧
    sanitizeString (sanitizeString "  <b>hi</b>  ".toList) =
      sanitizeString "  <b>hi</b>  ".toList :=
  ⟨by decide, c4_sanitize_idem_of_short _ (by decide)⟩

/-! ## Allocation lemmas and claims C1, C8 -/

theorem jadd_zero (n : JSNumber) : jadd n (fin 0) = n := by
  cases n <;> simp [jadd]

theorem numOr_zero_eq_self {n : JSNumber} (h : n ≠ nan) :
    numOr n (fin 0) = n := by
  cases n with
  | nan => exact absurd rfl h
  | posInf => rfl
  | negInf => rfl
  | fin q =>
    by_cases hq : q = 0
    · subst hq; rfl
    · simp [numOr, numTruthy, hq]

theorem userSubtotalOf_eq_claimed (r : ReceiptData)
    (sels : List UserSelection) :
    userSubtotalOf r sels = claimClaimedSubtotal r sels := by
  unfold userSubtotalOf claimClaimedSubtotal
  generalize (sels.filter fun s => s.isSelected) = l
  have key : ∀ (l : List UserSelection) (acc : JSNumber),
      l.foldl (fun acc sel =>
        match r.items.find? (fun i => i.id == sel.itemId) with
        | some item => jadd acc (jdiv item.price sel.splitCount)
        | none => acc) acc =
      l.foldl (fun acc sel =>
        jadd acc
          (match r.items.find? (fun i => i.id == sel.itemId) with
           | some item => jdiv item.price sel.splitCount
           | none => fin 0)) acc := by
    intro l
    induction l with
    | nil => intro acc; rfl
    | cons s t ih =>
      intro acc
      simp only [List.foldl_cons]
      cases hf : r.items.find? (fun i => i.id == s.itemId) with
      | none => simp only [hf, jadd_zero]; exact ih _
      | some item => simp only [hf]; exact ih _
  exact key l (fin 0)

/-- C1 counterexample: `negSubItemReceipt` is a validated receipt (the
validator output on `negSubItemInput`), yet on it the engine differs from
the claim's formula: the code keeps the truthy negative subtotal `-5` as
the denominator test (`-5 > 0` fails, ratio `0`, total `10`), while the
claim's "positive number" test falls back to the item sum `10` (ratio `1`,
total `11`). -/
theorem c1_counterexample :
    validateReceiptIntegrity negSubItemInput = some negSubItemReceipt ∧
    calculations (some negSubItemReceipt) singleSelection ≠
      claimAllocation negSubItemReceipt singleSelection := by
  constructor
  · decide
  · decide

/-- C1 amended: for every receipt whose `tax` and `tip` are not `NaN`
(every validated receipt qualifies) and every selection list, the engine
returns exactly the claim's quantities, with the one correction that
`receiptSubtotal` is `Receipt.subtotal` whenever it is **nonzero** (truthy)
— not "positive" — and the item-sum fallback applies only to a zero (or
`NaN`) subtotal. -/
theorem c1_amended (r : ReceiptData) (sels : List UserSelection)
    (htax : r.tax ≠ nan) (htip : r.tip ≠ nan) :
    calculations (some r) sels = claimAllocationAmended r sels := by
  simp only [calculations, claimAllocationAmended,
    userSubtotalOf_eq_claimed r sels, numOr_zero_eq_self htax,
    numOr_zero_eq_self htip]

/-- C1 witness: the amended equation instantiated on the spec's worked
example (§8). -/
theorem c1_witness :
    calculations (some workedReceipt) workedSelections =
      claimAllocationAmended workedReceipt workedSelections ∧
    calculations (some workedReceipt) workedSelections =
      { subtotal := fin 10, tax := fin 1, tip := fin 2, total := fin 13,
        ratio := fin (1 / 3) } :=
  ⟨c1_amended workedReceipt workedSelections (by decide) (by decide),
   by decide⟩

/-- C8: a selection whose `itemId` matches no item of the receipt
contributes exactly `0` to the claimed subtotal — the allocation result
equals the result with that selection removed. -/
theorem c8_stale_selection (r : ReceiptData)
    (pre post : List UserSelection) (sel : UserSelection)
    (h : r.items.find? (fun i => i.id == sel.itemId) = none) :
    calculations (some r) (pre ++ sel :: post) =
      calculations (some r) (pre ++ post) := by
  have hsub : userSubtotalOf r (pre ++ sel :: post) =
      userSubtotalOf r (pre ++ post) := by
    unfold userSubtotalOf
    cases hs : sel.isSelected with
    | false => simp [List.filter_append, List.filter_cons, hs]
    | true =>
      simp only [List.filter_append, List.filter_cons, hs, if_pos,
        List.foldl_append, List.foldl_cons, h]
  simp only [calculations, hsub]

/-- C8 witness: a concrete stale selection inserted into the worked
example's selections leaves the result unchanged. -/
theorem c8_witness :
    calculations (some workedReceipt)
        (workedSelections ++ staleSelection :: []) =
      calculations (some workedReceipt) (workedSelections ++ []) :=
  c8_stale_selection workedReceipt workedSelections [] staleSelection
    (by decide)

/-! ## Validator lemmas and claims C2, C5, C7 -/

/-- C2: the claim's invariant — every numeric field of a validated receipt
finite and non-negative — is the code's documented intent ("Prevents Bill
Tampering", "we ensure numbers are valid") but does not hold: the payload
`{"restaurantName":"R","items":[],"subtotal":-5}` passes validation with
its negative subtotal intact (`Number(x) || 0` only filters `NaN` and `0`,
and the four money fields have no clamp). -/
theorem c2_negative_subtotal_accepted :
    validateReceiptIntegrity negSubtotalInput = some negSubtotalReceipt ∧
    nonNegFinite negSubtotalReceipt.subtotal = false := by
  constructor
  · decide
  · decide

theorem getFieldEx_ok {v : JSValue} (h : notNullish v = true) (k : JStr) :
    getFieldEx v k = .ok (getField v k) := by
  cases v <;> simp_all [notNullish, getFieldEx]

theorem numCoercible_ok {v : JSValue} (h : numCoercible v = true) :
    ∃ n, toNumber v = .ok n := by
  unfold numCoercible at h
  cases hv : toNumber v with
  | ok n => exact ⟨n, rfl⟩
  | error u => rw [hv] at h; simp at h

theorem jsSanitize_jsOr_ok {v : JSValue} (d : JStr)
    (h : strOrFalsy v = true) :
    ∃ s, jsSanitize (jsOr v (vStr d)) = .ok s := by
  unfold jsOr
  cases hb : truthy v with
  | false => exact ⟨sanitizeString d, by simp [hb, jsSanitize]⟩
  | true =>
    cases v with
    | vStr s => exact ⟨sanitizeString s, by simp [hb, jsSanitize]⟩
    | vUndefined => simp [truthy] at hb
    | vNull => simp [truthy] at hb
    | vBool b => simp [strOrFalsy, isStr, hb] at h
    | vNum m => simp [strOrFalsy, isStr, hb] at h
    | vArr a => simp [strOrFalsy, isStr, hb] at h
    | vObj o => simp [strOrFalsy, isStr, hb] at h

theorem validateItem_ok {item : JSValue} (h : itemShapeOk item = true)
    (idx : Nat) : ∃ it, validateItem idx item = .ok it := by
  unfold itemShapeOk at h
  simp only [Bool.and_eq_true] at h
  obtain ⟨⟨⟨⟨h1, h2⟩, h3⟩, h4⟩, h5⟩ := h
  obtain ⟨s1, hs1⟩ := jsSanitize_jsOr_ok (sharedId idx) h2
  obtain ⟨s2, hs2⟩ := jsSanitize_jsOr_ok ("Unknown Item".toList) h3
  obtain ⟨qn, hqn⟩ := numCoercible_ok h4
  obtain ⟨pn, hpn⟩ := numCoercible_ok h5
  refine ⟨{ id := s1, quantity := jmaxZero (numOr qn (fin 1)),
            description := s2,
            price := jmaxZero (numOr pn (fin 0)) }, ?_⟩
  unfold validateItem
  simp only [getFieldEx_ok h1, hs1, hs2, hqn, hpn]

theorem validateItems_ok {l : List JSValue} (h : l.all itemShapeOk = true) :
    ∀ idx, ∃ items, validateItems idx l = .ok items := by
  induction l with
  | nil => intro idx; exact ⟨[], rfl⟩
  | cons item rest ih =>
    intro idx
    simp only [List.all_cons, Bool.and_eq_true] at h
    obtain ⟨it, hit⟩ := validateItem_ok h.1 idx
    obtain ⟨its, hits⟩ := ih h.2 (idx + 1)
    refine ⟨it :: its, ?_⟩
    unfold validateItems
    simp only [hit, hits]

/-- C5 counterexample: the payload
`{"restaurantName":"R","date":123,"items":[]}` passes every top-level
structural check, yet the whole document is rejected — `sanitizeString`
throws on the truthy non-string `date` and the `catch` converts the
exception to a rejection. -/
theorem c5_counterexample :
    passesTopLevel numericDateInput = true ∧
    validateReceiptIntegrity numericDateInput = none := by
  constructor
  · decide
  · decide

/-- C5 amended: beyond the top-level checks, the validator also rejects the
whole document whenever a string-sanitized position (`date`, `currency`, an
item's `id` or `description`) holds a truthy non-string, an item element is
`null`/`undefined`, or a `Number()` position (`subtotal`, `tax`, `tip`,
`total`, an item's `quantity` or `price`) holds a value whose coercion
throws — an object carrying an own `toString` property, possibly inside
nested arrays (every thrown `TypeError` is caught as a rejection).  On
every input passing the top-level checks whose sanitized positions are
strings or falsy, whose numeric positions are coercible and whose items
are not nullish, each individually malformed item is repaired with the
documented defaults and the document is accepted. -/
theorem c5_amended (d : JSValue) (h1 : passesTopLevel d = true)
    (h2 : docShapeOk d = true) :
    (validateReceiptIntegrity d).isSome = true := by
  unfold passesTopLevel at h1
  simp only [Bool.and_eq_true] at h1
  obtain ⟨⟨⟨ht, hobj⟩, hstr⟩, harr⟩ := h1
  unfold docShapeOk at h2
  simp only [Bool.and_eq_true] at h2
  obtain ⟨⟨⟨⟨⟨⟨hdate, hcur⟩, hsub⟩, htax⟩, htip⟩, htot⟩, hitems⟩ := h2
  obtain ⟨itemList, hl⟩ : ∃ l, getField d itemsK = vArr l := by
    cases hits : getField d itemsK <;> simp_all [isArr]
  obtain ⟨rs, hrs⟩ : ∃ s, getField d rnK = vStr s := by
    cases hrn : getField d rnK <;> simp_all [isStr]
  rw [hl] at hitems
  obtain ⟨s1, hs1⟩ := jsSanitize_jsOr_ok [] hdate
  obtain ⟨s2, hs2⟩ := jsSanitize_jsOr_ok ("$".toList) hcur
  obtain ⟨n1, hn1⟩ := numCoercible_ok hsub
  obtain ⟨n2, hn2⟩ := numCoercible_ok htax
  obtain ⟨n3, hn3⟩ := numCoercible_ok htip
  obtain ⟨n4, hn4⟩ := numCoercible_ok htot
  obtain ⟨items, hits⟩ := validateItems_ok hitems 0
  have hrs' : jsSanitize (getField d rnK) = .ok (sanitizeString rs) := by
    rw [hrs]; rfl
  unfold validateReceiptIntegrity
  rw [hl]
  simp at hs2
  simp [ht, hobj, hstr, hrs', hs1, hs2, hn1, hn2, hn3, hn4, hits]

/-- C5 witness: a document with one item missing `id`, `quantity` and
`price` passes the top-level checks, satisfies the shape conditions, and
validates (the item repaired with defaults). -/
theorem c5_witness : (validateReceiptIntegrity repairableInput).isSome = true :=
  c5_amended repairableInput (by decide) (by decide)

theorem find?_filter_eq {α : Type} (m : List α) (p q : α → Bool)
    (himp : ∀ x, p x = true → q x = true) :
    (m.filter q).find? p = m.find? p := by
  induction m with
  | nil => rfl
  | cons a t ih =>
    by_cases hq : q a = true
    · rw [List.filter_cons_of_pos hq]
      by_cases hp : p a = true
      · simp [hp]
      · have hp' : ¬ p a := by simpa using hp
        simp [hp', ih]
    · have hp' : ¬ p a := fun hpa => hq (himp a (by simpa using hpa))
      rw [List.filter_cons_of_neg (by simpa using hq)]
      simp [hp', ih]

theorem getField_setField_eq (l : List (JStr × JSValue)) (k : JStr)
    (x : JSValue) : getField (setField (vObj l) k x) k = x := by
  simp only [setField, getField, lookupField]
  rw [List.reverse_append,
    show ([(k, x)] : List (JStr × JSValue)).reverse = [(k, x)] from rfl,
    List.singleton_append, List.find?_cons_of_pos _ (by simp)]

theorem getField_setField_ne (l : List (JStr × JSValue)) {k k' : JStr}
    (x : JSValue) (h : k' ≠ k) :
    getField (setField (vObj l) k x) k' = getField (vObj l) k' := by
  simp only [setField, getField, lookupField]
  rw [List.reverse_append,
    show ([(k, x)] : List (JStr × JSValue)).reverse = [(k, x)] from rfl,
    List.singleton_append,
    List.find?_cons_of_neg _ (by
      simp only [beq_iff_eq]
      exact fun e => h e.symm),
    ← List.filter_reverse,
    find?_filter_eq _ _ _ (fun z hz => by
      simp only [beq_iff_eq] at hz
      simp [hz, h])]

/-- C7: the validator never rejects on a mismatch between the sum of item
prices and `total`: replacing the `total` field of any accepted document by
an arbitrary number keeps it accepted (acceptance is entirely independent
of the `total` field, hence of any reconciliation with the item prices). -/
theorem c7_total_never_rejected (d : JSValue) (n : JSNumber)
    (h : (validateReceiptIntegrity d).isSome = true) :
    (validateReceiptIntegrity (setField d totalK (vNum n))).isSome = true := by
  cases d with
  | vObj l =>
    have grn := getField_setField_ne l (k := totalK) (vNum n)
      (show rnK ≠ totalK by decide)
    have gdate := getField_setField_ne l (k := totalK) (vNum n)
      (show dateK ≠ totalK by decide)
    have gcur := getField_setField_ne l (k := totalK) (vNum n)
      (show currencyK ≠ totalK by decide)
    have gsub := getField_setField_ne l (k := totalK) (vNum n)
      (show subtotalK ≠ totalK by decide)
    have gtax := getField_setField_ne l (k := totalK) (vNum n)
      (show taxK ≠ totalK by decide)
    have gtip := getField_setField_ne l (k := totalK) (vNum n)
      (show tipK ≠ totalK by decide)
    have gitems := getField_setField_ne l (k := totalK) (vNum n)
      (show itemsK ≠ totalK by decide)
    unfold validateReceiptIntegrity at h ⊢
    simp only [grn, gdate, gcur, gsub, gtax, gtip, gitems]
    simp only [setField, truthy, typeofObject, Bool.and_self, Bool.not_true,
      Bool.false_eq_true] at h ⊢
    rw [if_neg (by simp)] at h ⊢
    cases hrn : (getField (vObj l) rnK).isStr with
    | false => rw [hrn] at h; simp at h
    | true =>
      rw [hrn] at h
      rw [if_neg (by simp)] at h ⊢
      cases hits : getField (vObj l) itemsK with
      | vArr itemList =>
        cases e1 : jsSanitize (getField (vObj l) rnK) with
        | error u => simp [hits, e1] at h
        | ok s1 =>
          cases e2 : jsSanitize (jsOr (getField (vObj l) dateK)
              (vStr [])) with
          | error u => simp [hits, e1, e2] at h
          | ok s2 =>
            cases e3 : jsSanitize (jsOr (getField (vObj l) currencyK)
                (vStr ['$'])) with
            | error u => simp [hits, e1, e2, e3] at h
            | ok s3 =>
              cases e5 : toNumber (getField (vObj l) subtotalK) with
              | error u => simp [hits, e1, e2, e3, e5] at h
              | ok n5 =>
                cases e6 : toNumber (getField (vObj l) taxK) with
                | error u => simp [hits, e1, e2, e3, e5, e6] at h
                | ok n6 =>
                  cases e7 : toNumber (getField (vObj l) tipK) with
                  | error u => simp [hits, e1, e2, e3, e5, e6, e7] at h
                  | ok n7 =>
                    cases e4 : validateItems 0 itemList with
                    | error u =>
                      cases e8 : toNumber (getField (vObj l) totalK) with
                      | error u2 =>
                        simp [hits, e1, e2, e3, e5, e6, e7, e8] at h
                      | ok n8 =>
                        simp [hits, e1, e2, e3, e5, e6, e7, e8, e4] at h
                    | ok items =>
                      have etot : getField (vObj (List.filter
                          (fun p => !(p.1 == totalK)) l ++
                          [(totalK, vNum n)])) totalK = vNum n := by
                        simpa [setField] using
                          getField_setField_eq l totalK (vNum n)
                      simp [hits, e1, e2, e3, e5, e6, e7, e4, etot,
                        toNumber]
      | vUndefined => rw [hits] at h; simp at h
      | vNull => rw [hits] at h; simp at h
      | vBool b => rw [hits] at h; simp at h
      | vNum m => rw [hits] at h; simp at h
      | vStr s => rw [hits] at h; simp at h
      | vObj l2 => rw [hits] at h; simp at h
  | vUndefined => simp [validateReceiptIntegrity, truthy, typeofObject] at h
  | vNull => simp [validateReceiptIntegrity, truthy, typeofObject] at h
  | vBool b => simp [validateReceiptIntegrity, truthy, typeofObject] at h
  | vNum m => simp [validateReceiptIntegrity, truthy, typeofObject] at h
  | vStr s => simp [validateReceiptIntegrity, truthy, typeofObject,
      getField, isStr] at h
  | vArr l => simp [validateReceiptIntegrity, truthy, typeofObject,
      getField, isStr] at h

/-- C7 witness: a well-formed document whose single item costs 30 while its
`total` says 100 — tampering the total further to any number — stays
accepted. -/
theorem c7_witness :
    (validateReceiptIntegrity
      (setField mismatchInput totalK (vNum (fin 100)))).isSome = true :=
  c7_total_never_rejected mismatchInput (fin 100) (by decide)

/-! ## Codec lemmas and claim C3 -/

theorem stableStr_eq {s : JStr} (h : stableStr s = true) :
    sanitizeString s = s := by
  unfold stableStr at h
  simpa using h

theorem jsOr_vStr_nil (s : JStr) : jsOr (vStr s) (vStr []) = vStr s := by
  unfold jsOr truthy
  cases s <;> simp

theorem jsOr_vStr_of_ne_nil {s : JStr} (h : s.isEmpty = false)
    (d : JStr) : jsOr (vStr s) (vStr d) = vStr s := by
  unfold jsOr truthy
  simp [h]

theorem numOr_fin_zero (q : ℚ) : numOr (fin q) (fin 0) = fin q := by
  by_cases hq : q = 0
  · subst hq; rfl
  · simp [numOr, numTruthy, hq]

theorem encode_truthy (r : ReceiptData) : truthy (encodeToken r) = true :=
  rfl

theorem encode_typeof (r : ReceiptData) :
    typeofObject (encodeToken r) = true := rfl

theorem encode_getField_rn (r : ReceiptData) :
    getField (encodeToken r) rnK = vStr r.restaurantName := rfl

theorem encode_getField_date (r : ReceiptData) :
    getField (encodeToken r) dateK = vStr r.date := rfl

theorem encode_getField_currency (r : ReceiptData) :
    getField (encodeToken r) currencyK = vStr r.currency := rfl

theorem encode_getField_subtotal (r : ReceiptData) :
    getField (encodeToken r) subtotalK = numToJson r.subtotal := rfl

theorem encode_getField_tax (r : ReceiptData) :
    getField (encodeToken r) taxK = numToJson r.tax := rfl

theorem encode_getField_tip (r : ReceiptData) :
    getField (encodeToken r) tipK = numToJson r.tip := rfl

theorem encode_getField_total (r : ReceiptData) :
    getField (encodeToken r) totalK = numToJson r.total := rfl

theorem encode_getField_items (r : ReceiptData) :
    getField (encodeToken r) itemsK = vArr (r.items.map itemToJson) := rfl

theorem validateItem_stable {i : ReceiptItem} (h : stableItem i = true)
    (idx : Nat) : validateItem idx (itemToJson i) = .ok i := by
  obtain ⟨iid, iq, idesc, ip⟩ := i
  unfold stableItem at h
  simp only [Bool.and_eq_true] at h
  obtain ⟨⟨⟨⟨⟨hidne, hid⟩, hdescne⟩, hdesc⟩, hq⟩, hp⟩ := h
  obtain ⟨q, rfl⟩ : ∃ q, iq = fin q := by
    cases iq <;> simp_all
  have hqpos : 0 < q := by simpa using hq
  obtain ⟨p, rfl⟩ : ∃ p, ip = fin p := by
    cases ip <;> simp_all
  have hpnn : 0 ≤ p := by simpa using hp
  have hidne' : (iid : JStr).isEmpty = false := by simpa using hidne
  have hdescne' : (idesc : JStr).isEmpty = false := by simpa using hdescne
  have e1 : getFieldEx (itemToJson ⟨iid, fin q, idesc, fin p⟩) idK =
      .ok (vStr iid) := rfl
  have e2 : getFieldEx (itemToJson ⟨iid, fin q, idesc, fin p⟩) quantityK =
      .ok (vNum (fin q)) := rfl
  have e3 : getFieldEx (itemToJson ⟨iid, fin q, idesc, fin p⟩)
      descriptionK = .ok (vStr idesc) := rfl
  have e4 : getFieldEx (itemToJson ⟨iid, fin q, idesc, fin p⟩) priceK =
      .ok (vNum (fin p)) := rfl
  have hqor : numOr (fin q) (fin 1) = fin q := by
    simp [numOr, numTruthy, ne_of_gt hqpos]
  unfold validateItem
  simp [e1, e2, e3, e4, jsOr_vStr_of_ne_nil hidne',
    jsOr_vStr_of_ne_nil hdescne', jsSanitize, stableStr_eq hid,
    stableStr_eq hdesc, toNumber, numOr_fin_zero, hqor, jmaxZero,
    max_eq_right (le_of_lt hqpos), max_eq_right hpnn]

theorem validateItems_stable {items : List ReceiptItem}
    (h : items.all stableItem = true) :
    ∀ idx, validateItems idx (items.map itemToJson) = .ok items := by
  induction items with
  | nil => intro idx; rfl
  | cons i rest ih =>
    intro idx
    simp only [List.all_cons, Bool.and_eq_true] at h
    rw [List.map_cons]
    unfold validateItems
    rw [validateItem_stable h.1 idx, ih h.2 (idx + 1)]

/-- C3 counterexample: the validator output on an item of quantity `-3` is
a valid receipt carrying quantity `0`; encoding it and decoding the token
re-validates, and `Math.max(0, Number(0) || 1)` turns the quantity into
`1`, so the round trip does not reproduce the receipt. -/
theorem c3_counterexample :
    validateReceiptIntegrity negQuantityInput = some negQuantityReceipt ∧
    decodeToken (encodeToken negQuantityReceipt) ≠ some negQuantityReceipt := by
  constructor
  · decide
  · decide

/-- C3 amended: `decode(encode(r))` succeeds and reproduces every preserved
field exactly — item order included — for every receipt that re-validation
fixes: sanitization-stable `restaurantName` and `date`, nonempty
sanitization-stable `currency`, item `id`s and `description`s, finite
`subtotal`/`tax`/`tip`/`total`, positive finite quantities and non-negative
finite prices.  A validated receipt can fall outside this set (zero
quantity, truncation-unstable string, empty id, infinite total) and then
decodes to a different receipt. -/
theorem c3_roundtrip_stable (r : ReceiptData) (h : stableReceipt r = true) :
    decodeToken (encodeToken r) = some r := by
  obtain ⟨rn, dt, cur, sub, tax, tip, tot, items⟩ := r
  unfold stableReceipt at h
  simp only [Bool.and_eq_true] at h
  obtain ⟨⟨⟨⟨⟨⟨⟨⟨hrn, hdt⟩, hcurne⟩, hcur⟩, hsub⟩, htax⟩, htip⟩, htot⟩,
    hitems⟩ := h
  obtain ⟨sq, rfl⟩ : ∃ x, sub = fin x := by cases sub <;> simp_all
  obtain ⟨xq, rfl⟩ : ∃ x, tax = fin x := by cases tax <;> simp_all
  obtain ⟨pq, rfl⟩ : ∃ x, tip = fin x := by cases tip <;> simp_all
  obtain ⟨tq, rfl⟩ : ∃ x, tot = fin x := by cases tot <;> simp_all
  have hcurne' : (cur : JStr).isEmpty = false := by simpa using hcurne
  have hrn' := stableStr_eq hrn
  have hdt' := stableStr_eq hdt
  have hcur' := stableStr_eq hcur
  unfold decodeToken validateReceiptIntegrity
  rw [encode_truthy, encode_typeof, encode_getField_rn,
    encode_getField_items, encode_getField_date, encode_getField_currency,
    encode_getField_subtotal, encode_getField_tax, encode_getField_tip,
    encode_getField_total]
  rw [if_neg (by simp)]
  rw [if_neg (by simp [isStr])]
  simp [jsSanitize, numToJson, toNumber, jsOr_vStr_nil,
    jsOr_vStr_of_ne_nil hcurne', hrn', hdt', hcur',
    validateItems_stable hitems 0, numOr_fin_zero]

/-- C3 witness: a concrete stable receipt round-trips exactly. -/
theorem c3_witness :
    stableReceipt stableExample = true ∧
    decodeToken (encodeToken stableExample) = some stableExample :=
  ⟨by decide, c3_roundtrip_stable stableExample (by decide)⟩

/-! ## Decode-pipeline claim C6 -/

/-- C6 counterexample: the eleven-character fragment `!!!!!!!!!!!` is long
enough to enter the decode path and is not valid base64; `safeAtob`
swallows the `atob` exception and returns the empty string, which the
`if (jsonStr)` guard silently skips — no error is surfaced and the state
is unchanged, not the claimed uniform LinkInvalid outcome. -/
theorem c6_counterexample :
    handleHashChange bangToken initialAppSt = initialAppSt ∧
    (handleHashChange bangToken initialAppSt).error = none := by
  constructor
  · decide
  · decide

/-- C6 amended: no decode ever throws an uncaught error, and every token
lands in exactly one of three outcomes: silently ignored (short hash, or a
base64 failure swallowed as the empty string), the uniform LinkInvalid
outcome (a `decodeURIComponent` throw, a JSON-parse throw, or validator
rejection — error surfaced, fall back to `HOME`, receipt untouched), or a
successful load.  Malformed *base64* transport encoding is thus silently
ignored rather than surfaced, unlike the claim's single uniform outcome;
malformed *percent* encoding and all later failures do surface it. -/
theorem c6_decode_outcomes (hash : JStr) (st : AppSt) :
    (handleHashChange hash st = st ∨
     handleHashChange hash st =
       { st with appState := .HOME, error := some linkInvalidMsg } ∨
     (∃ v, handleHashChange hash st =
       { st with receipt := some v, appState := .CONFIRM_INFO,
                 error := none })) ∧
    (∀ uri, pctDecode hash = some uri → safeAtob uri = [] →
      handleHashChange hash st = st) := by
  constructor
  · unfold handleHashChange
    split
    · split
      · right; left; rfl
      · dsimp only
        split
        · split
          · right; left; rfl
          · split
            · right; right; exact ⟨_, rfl⟩
            · right; left; rfl
        · left; rfl
    · left; rfl
  · intro uri hpd hsa
    unfold handleHashChange
    by_cases hg : (truthy (vStr hash) && decide (hash.length > 10)) = true
    · rw [if_pos hg]
      simp only [hpd, hsa]
      simp
    · rw [if_neg hg]

/-- C6 witness: a long fragment of asterisks percent-decodes to itself,
fails base64, and is silently ignored, by the amended classification. -/
theorem c6_witness :
    handleHashChange starToken initialAppSt = initialAppSt :=
  (c6_decode_outcomes starToken initialAppSt).2 starToken (by decide)
    (by decide)

end ReceiptSplitter
